import Mathlib

/-!
Shallow embedding of `nextdns_logs.py` (NextDNS log downloader).

The embedding models, faithfully to the Python source:
* the JSON-like record values (`Value`, mutually with `ValueList`/`FieldList`
  so the structural walk of the flattener is plain structural recursion);
* Python truthiness of optional strings (`None` and `""` are falsy) and of
  optional ints (`None` and `0` are falsy), and Python list slicing `xs[:m]`;
* `get_logs` (request-parameter construction and the transport-failure
  normalisation to `{'data': [], 'meta': {}}`);
* `download_all_logs` (the pagination loop, the cap check, the cursor check
  and the `time.sleep(0.5)` pacing calls, counted rather than timed);
* `_flatten_dict`, `save_to_csv` (header computation and row rendering);
* the output/exit behaviour of `main` as an event trace.
-/

set_option autoImplicit false

namespace NextDNS

/-- Python truthiness of an optional string: `None` and `""` are falsy.
Models `if cursor:` / `if not args.api_key:` in the source. -/
def pyTruthy : Option String → Bool
  | none => false
  | some s => !(s == "")

mutual
/-- A JSON-like value as parsed by `response.json()`: string, number
(modelled as `Int`; the claims only exercise integers), boolean, null,
ordered list, ordered mapping. -/
inductive Value where
  | str (s : String)
  | num (n : Int)
  | bool (b : Bool)
  | null
  | list (items : ValueList)
  | obj (fields : FieldList)

/-- An ordered list of `Value`s (a Python list). -/
inductive ValueList where
  | nil
  | cons (v : Value) (vs : ValueList)

/-- An ordered mapping from string keys to `Value`s (a Python dict,
insertion-ordered). -/
inductive FieldList where
  | nil
  | cons (k : String) (v : Value) (fs : FieldList)
end

/-- One page as the driver sees it: `response.get('data', [])` and
`response.get('meta', {}).get('cursor')`.  Polymorphic in the record type:
the driver never inspects records. -/
structure Page (α : Type) where
  data : List α
  cursor : Option String
deriving DecidableEq

/-- Result of a driver run: the accumulated records, the number of
`time.sleep(0.5)` pacing calls, and the number of `get_logs` fetches. -/
structure DlResult (α : Type) where
  logs : List α
  sleeps : Nat
  fetches : Nat
deriving DecidableEq

/-- `if max_logs and len(all_logs) >= max_logs:` — Python truthiness of the
optional int (`None` and `0` are falsy) conjoined with the length test. -/
def capHit (cap : Option Int) (n : Nat) : Bool :=
  match cap with
  | none => false
  | some m => (decide (m ≠ 0)) && (decide (m ≤ (n : Int)))

/-- Python list slicing `xs[:m]`: for `m ≥ 0` the first `m` elements, for
`m < 0` all but the last `-m` elements (clamped at zero). -/
def pySliceTo {α : Type} (xs : List α) (m : Int) : List α :=
  if 0 ≤ m then xs.take m.toNat else xs.take (xs.length - (-m).toNat)

/-- The body of `download_all_logs`' `while True:` loop.  The simulated API
is the list of pages it would deliver in fetch order; an exhausted page list
behaves as `get_logs`' failure result `{'data': [], 'meta': {}}`.  Each call
counts as one fetch; `sleeps` counts the `time.sleep(0.5)` calls, which the
source executes only after a page that passes the cap check and carries a
truthy cursor. -/
def downloadLoop {α : Type} (cap : Option Int) : List (Page α) → List α → DlResult α
  | [], acc => ⟨acc, 0, 1⟩
  | p :: rest, acc =>
    if p.data.isEmpty then ⟨acc, 0, 1⟩
    else
      if capHit cap (acc ++ p.data).length then
        ⟨(match cap with
          | some m => pySliceTo (acc ++ p.data) m
          | none => acc ++ p.data), 0, 1⟩
      else if pyTruthy p.cursor then
        let r := downloadLoop cap rest (acc ++ p.data)
        ⟨r.logs, r.sleeps + 1, r.fetches + 1⟩
      else ⟨acc ++ p.data, 0, 1⟩

/-- `download_all_logs(max_logs)` run against a simulated API page stream. -/
def download_all_logs {α : Type} (cap : Option Int) (api : List (Page α)) : DlResult α :=
  downloadLoop cap api []

/-- The query parameters `get_logs` sends: `params = {'limit': min(limit, 100)}`
and `if cursor: params['cursor'] = cursor`. -/
structure RequestParams where
  limit : Int
  cursor : Option String
deriving DecidableEq

/-- Construction of the request parameters in `get_logs`. -/
def get_logs_params (limit : Int) (cursor : Option String) : RequestParams :=
  { limit := min limit 100,
    cursor := if pyTruthy cursor then cursor else none }

/-- The transport-level failures `requests` surfaces as
`requests.exceptions.RequestException` subclasses: timeout, connection
error, DNS resolution error, a 4xx/5xx raised by `raise_for_status()`, and
a malformed JSON body raised by `response.json()`. -/
inductive FetchFailure where
  | timeout
  | connectionError
  | dnsError
  | httpStatusError (code : Nat)
  | malformedBody
deriving DecidableEq

/-- The `try/except requests.exceptions.RequestException` in `get_logs`: a
successful response body passes through; every transport failure is caught
and replaced by `{'data': [], 'meta': {}}` (the message printing is I/O and
is not modelled). -/
def get_logs_result {α : Type} (r : Except FetchFailure (Page α)) : Page α :=
  match r with
  | Except.ok page => page
  | Except.error _ => ⟨[], none⟩

mutual
/-- Python `repr` of a parsed-JSON value, as `str` would show it inside a
list or dict: strings get quotes, `True`/`False`/`None` keep Python
spelling, containers recurse. -/
def pyRepr : Value → String
  | Value.str s => "\x27" ++ s ++ "\x27"
  | Value.num n => toString n
  | Value.bool b => if b then "True" else "False"
  | Value.null => "None"
  | Value.list xs => "[" ++ String.intercalate ", " (pyReprList xs) ++ "]"
  | Value.obj fs => "\x7b" ++ String.intercalate ", " (pyReprFields fs) ++ "\x7d"

/-- `repr` of each element of a list. -/
def pyReprList : ValueList → List String
  | ValueList.nil => []
  | ValueList.cons v vs => pyRepr v :: pyReprList vs

/-- `repr` of each `key: value` entry of a dict. -/
def pyReprFields : FieldList → List String
  | FieldList.nil => []
  | FieldList.cons k v fs =>
    ("\x27" ++ k ++ "\x27: " ++ pyRepr v) :: pyReprFields fs
end

/-- Python `str()` of a parsed-JSON value: identical to `repr` except that a
top-level string is returned verbatim. -/
def pyStr (v : Value) : String :=
  match v with
  | Value.str s => s
  | v => pyRepr v

/-- The elements of a `ValueList` as a Lean list. -/
def ValueList.toList : ValueList → List Value
  | ValueList.nil => []
  | ValueList.cons v vs => v :: ValueList.toList vs

/-- The entries of a `FieldList` as a Lean association list. -/
def FieldList.toList : FieldList → List (String × Value)
  | FieldList.nil => []
  | FieldList.cons k v fs => (k, v) :: FieldList.toList fs

/-- `', '.join(map(str, v)) if v else ''` — the rendering `_flatten_dict`
applies to a list value. -/
def pyJoinList (xs : ValueList) : String :=
  match xs with
  | ValueList.nil => ""
  | xs => String.intercalate ", " (xs.toList.map pyStr)

/-- `f"{parent_key}{sep}{k}" if parent_key else k` — the empty parent key is
falsy in Python. -/
def newKey (parentKey sep k : String) : String :=
  if parentKey == "" then k else parentKey ++ sep ++ k

/-- One step of Python `dict(items)` construction: an existing key keeps its
position but takes the new value; a new key is appended. -/
def pyDictInsert (m : List (String × Value)) (k : String) (v : Value) :
    List (String × Value) :=
  if m.any (fun p => p.1 == k) then
    m.map (fun p => if p.1 == k then (k, v) else p)
  else m ++ [(k, v)]

/-- Python `dict(items)` over a pair list: first-insertion order, last value
wins. -/
def pyDict (items : List (String × Value)) : List (String × Value) :=
  items.foldl (fun m p => pyDictInsert m p.1 p.2) []

mutual
/-- The `items` accumulation of `_flatten_dict`, walking the entries of one
dict under a given (already joined) parent key. -/
def flattenFields (sep : String) (fs : FieldList) (parentKey : String) :
    List (String × Value) :=
  match fs with
  | FieldList.nil => []
  | FieldList.cons k v rest =>
    flattenEntry sep (newKey parentKey sep k) v ++ flattenFields sep rest parentKey

/-- The per-entry branch of `_flatten_dict`: a dict recurses (through the
nested `dict(...)` of the recursive call, whose `.items()` are spliced in),
a list is joined to a single string, any other value passes through. -/
def flattenEntry (sep keyed : String) (v : Value) : List (String × Value) :=
  match v with
  | Value.obj fs => pyDict (flattenFields sep fs keyed)
  | Value.list xs => [(keyed, Value.str (pyJoinList xs))]
  | v => [(keyed, v)]
end

/-- `_flatten_dict(d)` with the default `parent_key=''` and `sep='_'`:
the flattened single-level mapping, as Python builds it via `dict(items)`. -/
def flatten_dict (d : FieldList) : List (String × Value) :=
  pyDict (flattenFields "_" d "")

/-- `True` exactly on the scalar values (string, number, boolean, null). -/
def isScalar : Value → Bool
  | Value.obj _ => false
  | Value.list _ => false
  | _ => true

/-- First-match lookup in a flattened mapping, i.e. `flattened.get(key)`. -/
def lookupVal : List (String × Value) → String → Option Value
  | [], _ => none
  | (k2, v) :: rest, k => if k2 == k then some v else lookupVal rest k

/-- One CSV cell: a missing key renders as `DictWriter`'s default `restval`
`''`; `None` is written as the empty string by the `csv` module; any other
value is stringified with `str()`. -/
def csvCell : Option Value → String
  | none => ""
  | some Value.null => ""
  | some v => pyStr v

/-- The keys contributed to `fieldnames` by each record, in record order:
`for log in logs: fieldnames.update(self._flatten_dict(log).keys())`. -/
def allKeys (logs : List FieldList) : List String :=
  logs.foldr (fun log acc => (flatten_dict log).map Prod.fst ++ acc) []

/-- Executable lexicographic comparison of character lists by code point,
as Python compares strings. -/
def charListLe : List Char → List Char → Bool
  | [], _ => true
  | _ :: _, [] => false
  | a :: as, b :: bs =>
    if a < b then true
    else if b < a then false
    else charListLe as bs

/-- Executable lexicographic `≤` on strings, modelling the comparison
Python's `sorted` uses on the key set. -/
def strLeB (a b : String) : Bool := charListLe a.data b.data

/-- Insert a string into a sorted list, keeping it sorted. -/
def insertStr (s : String) : List String → List String
  | [] => [s]
  | t :: ts => if strLeB s t then s :: t :: ts else t :: insertStr s ts

/-- Insertion sort by `strLeB`, modelling Python's `sorted` on strings. -/
def sortStrings : List String → List String
  | [] => []
  | s :: ss => insertStr s (sortStrings ss)

/-- `fieldnames = sorted(list(fieldnames))` where `fieldnames` was a set:
the deduplicated key union in lexicographic order. -/
def fieldnames (logs : List FieldList) : List String :=
  sortStrings (allKeys logs).dedup

/-- One data row written by `writer.writerow(self._flatten_dict(log))`:
the cells in header order, via `csvCell`. -/
def csvRow (header : List String) (log : FieldList) : List String :=
  header.map (fun k => csvCell (lookupVal (flatten_dict log) k))

/-- The CSV file contents `save_to_csv` produces: the header row and the
data rows. -/
structure CsvFile where
  header : List String
  rows : List (List String)
deriving DecidableEq

/-- `save_to_csv(logs, filename)`: `None` models the early return (`if not
logs: print(...); return` — nothing is written); otherwise the written
file. -/
def save_to_csv (logs : List FieldList) : Option CsvFile :=
  if logs.isEmpty then none
  else some { header := fieldnames logs, rows := logs.map (csvRow (fieldnames logs)) }

/-- Observable events of a `main` run: a network fetch, a JSON file write,
a CSV file write, and process exit with a status code. -/
inductive Ev where
  | netRequest
  | writeJson
  | writeCsv
  | exitWith (code : Nat)
deriving DecidableEq

/-- `argparse`'s `default=os.environ.get(...)`: the flag value if the flag
was given, else the environment value (which may itself be absent). -/
def resolveArg (flag env : Option String) : Option String :=
  match flag with
  | some s => some s
  | none => env

/-- The event trace of `main`: `parser.error` (which exits with status 2)
fires before any network activity when the resolved api key or profile is
falsy; otherwise the download runs (one `netRequest` per fetch), an empty
result returns early, and otherwise `--csv-only` suppresses the JSON write
and `--json-only` suppresses the CSV write; normal completion exits 0. -/
def mainRun {α : Type} (keyFlag keyEnv profFlag profEnv : Option String)
    (maxLogs : Option Int) (jsonOnly csvOnly : Bool) (api : List (Page α)) :
    List Ev :=
  if pyTruthy (resolveArg keyFlag keyEnv) = false then [Ev.exitWith 2]
  else if pyTruthy (resolveArg profFlag profEnv) = false then [Ev.exitWith 2]
  else
    List.replicate (download_all_logs maxLogs api).fetches Ev.netRequest ++
      (if (download_all_logs maxLogs api).logs.isEmpty then [Ev.exitWith 0]
       else
         (if csvOnly then [] else [Ev.writeJson]) ++
         (if jsonOnly then [] else [Ev.writeCsv]) ++ [Ev.exitWith 0])

/-! ### Properties of the string sort used for CSV fieldnames -/

theorem charListLe_iff : ∀ (as bs : List Char),
    charListLe as bs = true ↔ ¬ List.Lex (· < ·) bs as
  | [], bs => by
    cases bs <;> simp [charListLe]
  | a :: as, [] => by
    simp [charListLe]
    exact List.Lex.nil
  | a :: as, b :: bs => by
    by_cases h1 : a < b
    · simp only [charListLe, h1, if_true, true_iff]
      intro hlex
      cases hlex with
      | cons h => exact absurd h1 (lt_irrefl _)
      | rel h => exact absurd h1 (asymm h)
    · by_cases h2 : b < a
      · simp only [charListLe, h1, h2, if_false, if_true]
        constructor
        · intro h
          exact (Bool.false_ne_true h).elim
        · intro hn
          exact absurd (List.Lex.rel h2) hn
      · have hab : a = b := le_antisymm (not_lt.mp h2) (not_lt.mp h1)
        subst hab
        simp only [charListLe, lt_irrefl, if_false]
        rw [charListLe_iff as bs]
        constructor
        · intro h hlex
          cases hlex with
          | cons h3 => exact h h3
          | rel h3 => exact absurd h3 (lt_irrefl _)
        · intro h hlex
          exact h (List.Lex.cons hlex)

/-- The executable comparison agrees with the lexicographic order on
strings. -/
theorem strLeB_iff (a b : String) : strLeB a b = true ↔ a ≤ b := by
  rw [String.le_iff_toList_le]
  have h := charListLe_iff a.data b.data
  rw [strLeB, h]
  show ¬ (b.toList < a.toList) ↔ a.toList ≤ b.toList
  exact not_lt

theorem insertStr_perm (s : String) : ∀ (l : List String),
    List.Perm (insertStr s l) (s :: l)
  | [] => List.Perm.refl _
  | t :: ts => by
    by_cases hc : strLeB s t
    · simp [insertStr, hc]
    · simp only [insertStr, hc, if_false]
      exact ((insertStr_perm s ts).cons t).trans (List.Perm.swap s t ts)

theorem sortStrings_perm : ∀ (l : List String), List.Perm (sortStrings l) l
  | [] => List.Perm.refl _
  | s :: ss => (insertStr_perm s (sortStrings ss)).trans ((sortStrings_perm ss).cons s)

theorem sorted_insertStr (s : String) : ∀ (l : List String),
    List.Sorted (· ≤ ·) l → List.Sorted (· ≤ ·) (insertStr s l)
  | [], _ => List.sorted_singleton s
  | t :: ts, h => by
    rw [List.sorted_cons] at h
    obtain ⟨ht, hts⟩ := h
    by_cases hc : strLeB s t
    · simp only [insertStr, hc, if_true]
      rw [List.sorted_cons]
      refine ⟨?_, by rw [List.sorted_cons]; exact ⟨ht, hts⟩⟩
      intro b hb
      rcases List.mem_cons.mp hb with rfl | hb
      · exact (strLeB_iff s b).mp hc
      · exact le_trans ((strLeB_iff s t).mp hc) (ht b hb)
    · have hts' : t ≤ s :=
        le_of_not_le (fun hle => hc ((strLeB_iff s t).mpr hle))
      simp only [insertStr, hc, Bool.false_eq_true, if_false]
      rw [List.sorted_cons]
      refine ⟨?_, sorted_insertStr s ts hts⟩
      intro b hb
      have hb2 : b ∈ s :: ts := (insertStr_perm s ts).mem_iff.mp hb
      rcases List.mem_cons.mp hb2 with rfl | hb3
      · exact hts'
      · exact ht b hb3

theorem sorted_sortStrings : ∀ (l : List String),
    List.Sorted (· ≤ ·) (sortStrings l)
  | [] => List.sorted_nil
  | s :: ss => sorted_insertStr s (sortStrings ss) (sorted_sortStrings ss)

/-! ### Properties of the pagination driver -/

theorem downloadLoop_nil {α : Type} (cap : Option Int) (acc : List α) :
    downloadLoop cap [] acc = ⟨acc, 0, 1⟩ := rfl

theorem downloadLoop_cons_empty {α : Type} (cap : Option Int) (p : Page α)
    (rest : List (Page α)) (acc : List α) (h1 : p.data.isEmpty = true) :
    downloadLoop cap (p :: rest) acc = ⟨acc, 0, 1⟩ := by
  simp [downloadLoop, h1]

theorem downloadLoop_cons_cap {α : Type} (m : Int) (p : Page α)
    (rest : List (Page α)) (acc : List α) (h1 : p.data.isEmpty = false)
    (h2 : capHit (some m) (acc ++ p.data).length = true) :
    downloadLoop (some m) (p :: rest) acc = ⟨pySliceTo (acc ++ p.data) m, 0, 1⟩ := by
  simp only [downloadLoop, h1, h2, Bool.false_eq_true, if_false, if_true]

theorem downloadLoop_cons_cont {α : Type} (cap : Option Int) (p : Page α)
    (rest : List (Page α)) (acc : List α) (h1 : p.data.isEmpty = false)
    (h2 : capHit cap (acc ++ p.data).length = false) (h3 : pyTruthy p.cursor = true) :
    downloadLoop cap (p :: rest) acc =
      ⟨(downloadLoop cap rest (acc ++ p.data)).logs,
        (downloadLoop cap rest (acc ++ p.data)).sleeps + 1,
        (downloadLoop cap rest (acc ++ p.data)).fetches + 1⟩ := by
  simp only [downloadLoop, h1, h2, h3, Bool.false_eq_true, if_false, if_true]

theorem downloadLoop_cons_stop {α : Type} (cap : Option Int) (p : Page α)
    (rest : List (Page α)) (acc : List α) (h1 : p.data.isEmpty = false)
    (h2 : capHit cap (acc ++ p.data).length = false) (h3 : pyTruthy p.cursor = false) :
    downloadLoop cap (p :: rest) acc = ⟨acc ++ p.data, 0, 1⟩ := by
  simp only [downloadLoop, h1, h2, h3, Bool.false_eq_true, if_false, if_true]

/-- Without a cap, the loop only ever appends to its accumulator. -/
theorem downloadLoop_none_logs_prefix {α : Type} :
    ∀ (api : List (Page α)) (acc : List α),
    ∃ t, (downloadLoop none api acc).logs = acc ++ t
  | [], acc => ⟨[], by simp [downloadLoop_nil]⟩
  | p :: rest, acc => by
    by_cases h1 : p.data.isEmpty
    · exact ⟨[], by simp [downloadLoop_cons_empty none p rest acc h1]⟩
    · rw [Bool.not_eq_true] at h1
      have h2 : capHit none (acc ++ p.data).length = false := rfl
      by_cases h3 : pyTruthy p.cursor
      · obtain ⟨t, ht⟩ := downloadLoop_none_logs_prefix rest (acc ++ p.data)
        refine ⟨p.data ++ t, ?_⟩
        rw [downloadLoop_cons_cont none p rest acc h1 h2 h3]
        simp [ht]
      · rw [Bool.not_eq_true] at h3
        exact ⟨p.data, by rw [downloadLoop_cons_stop none p rest acc h1 h2 h3]⟩

/-- A positive cap produces exactly the uncapped record sequence truncated
to the cap, whatever the accumulator so far (as long as it is still below
the cap). -/
theorem downloadLoop_cap_take {α : Type} :
    ∀ (api : List (Page α)) (C : Int) (acc : List α),
    1 ≤ C → (acc.length : Int) < C →
    (downloadLoop (some C) api acc).logs =
      ((downloadLoop none api acc).logs).take C.toNat
  | [], C, acc, hC, hacc => by
    simp only [downloadLoop_nil]
    rw [List.take_of_length_le (by omega)]
  | p :: rest, C, acc, hC, hacc => by
    have hlen := List.length_append acc p.data
    by_cases h1 : p.data.isEmpty
    · rw [downloadLoop_cons_empty (some C) p rest acc h1,
        downloadLoop_cons_empty none p rest acc h1]
      show acc = List.take C.toNat acc
      rw [List.take_of_length_le (by omega)]
    · rw [Bool.not_eq_true] at h1
      have h2n : capHit none (acc ++ p.data).length = false := rfl
      by_cases h2 : C ≤ ((acc ++ p.data).length : Int)
      · have hcap : capHit (some C) (acc ++ p.data).length = true := by
          simp only [capHit, Bool.and_eq_true, decide_eq_true_eq]
          omega
        have hslice : pySliceTo (acc ++ p.data) C = (acc ++ p.data).take C.toNat := by
          rw [pySliceTo, if_pos (by omega)]
        rw [downloadLoop_cons_cap C p rest acc h1 hcap]
        by_cases h3 : pyTruthy p.cursor
        · obtain ⟨t, ht⟩ := downloadLoop_none_logs_prefix rest (acc ++ p.data)
          rw [downloadLoop_cons_cont none p rest acc h1 h2n h3]
          show pySliceTo (acc ++ p.data) C =
            List.take C.toNat (downloadLoop none rest (acc ++ p.data)).logs
          have htap : ((acc ++ p.data) ++ t).take C.toNat =
              (acc ++ p.data).take C.toNat :=
            List.take_append_of_le_length (by omega)
          rw [hslice, ht, htap]
        · rw [Bool.not_eq_true] at h3
          rw [downloadLoop_cons_stop none p rest acc h1 h2n h3]
          exact hslice
      · have hcap : capHit (some C) (acc ++ p.data).length = false := by
          simp only [capHit, List.length_append]
          simp only [List.length_append] at h2
          rw [Bool.and_eq_false_iff]
          right
          rw [decide_eq_false_iff_not]
          omega
        by_cases h3 : pyTruthy p.cursor
        · have ih := downloadLoop_cap_take rest C (acc ++ p.data) hC (by omega)
          rw [downloadLoop_cons_cont (some C) p rest acc h1 hcap h3,
            downloadLoop_cons_cont none p rest acc h1 h2n h3]
          exact ih
        · rw [Bool.not_eq_true] at h3
          rw [downloadLoop_cons_stop (some C) p rest acc h1 hcap h3,
            downloadLoop_cons_stop none p rest acc h1 h2n h3]
          show acc ++ p.data = List.take C.toNat (acc ++ p.data)
          rw [List.take_of_length_le (by omega)]

/-- The pacing sleep fires exactly once before each follow-up fetch: the
fetch count always exceeds the sleep count by one. -/
theorem downloadLoop_fetches_eq_sleeps_succ {α : Type} (cap : Option Int) :
    ∀ (api : List (Page α)) (acc : List α),
    (downloadLoop cap api acc).fetches = (downloadLoop cap api acc).sleeps + 1
  | [], acc => by simp [downloadLoop_nil]
  | p :: rest, acc => by
    by_cases h1 : p.data.isEmpty
    · rw [downloadLoop_cons_empty cap p rest acc h1]
    · rw [Bool.not_eq_true] at h1
      by_cases h2 : capHit cap (acc ++ p.data).length
      · match cap, h2 with
        | some m, h2 => rw [downloadLoop_cons_cap m p rest acc h1 h2]
      · rw [Bool.not_eq_true] at h2
        by_cases h3 : pyTruthy p.cursor
        · have ih := downloadLoop_fetches_eq_sleeps_succ cap rest (acc ++ p.data)
          rw [downloadLoop_cons_cont cap p rest acc h1 h2 h3]
          simp [ih]
        · rw [Bool.not_eq_true] at h3
          rw [downloadLoop_cons_stop cap p rest acc h1 h2 h3]

/-! ### Properties of the CSV fieldname union -/

theorem allKeys_nil : allKeys [] = [] := rfl

theorem allKeys_cons (log : FieldList) (rest : List FieldList) :
    allKeys (log :: rest) = (flatten_dict log).map Prod.fst ++ allKeys rest := rfl

theorem mem_map_fst {k : String} {l : List (String × Value)} :
    k ∈ l.map Prod.fst ↔ ∃ v, (k, v) ∈ l := by
  rw [List.mem_map]
  constructor
  · rintro ⟨⟨k2, v⟩, hm, rfl⟩
    exact ⟨v, hm⟩
  · rintro ⟨v, hm⟩
    exact ⟨(k, v), hm, rfl⟩

theorem mem_allKeys {k : String} : ∀ (logs : List FieldList),
    k ∈ allKeys logs ↔ ∃ log ∈ logs, ∃ v, (k, v) ∈ flatten_dict log
  | [] => by simp [allKeys_nil]
  | log :: rest => by
    rw [allKeys_cons, List.mem_append, mem_map_fst, mem_allKeys rest]
    constructor
    · rintro (⟨v, hv⟩ | ⟨l2, hl2, v, hv⟩)
      · exact ⟨log, List.mem_cons_self log rest, v, hv⟩
      · exact ⟨l2, List.mem_cons_of_mem log hl2, v, hv⟩
    · rintro ⟨l2, hl2, v, hv⟩
      rcases List.mem_cons.mp hl2 with rfl | hl2
      · exact Or.inl ⟨v, hv⟩
      · exact Or.inr ⟨l2, hl2, v, hv⟩

theorem mem_fieldnames {k : String} {logs : List FieldList} :
    k ∈ fieldnames logs ↔ k ∈ allKeys logs := by
  rw [fieldnames, (sortStrings_perm _).mem_iff]
  exact List.mem_dedup

/-! ### Claim theorems -/

/-- Claim C5 (confirmed): for every transport-level failure of a single page
fetch (timeout, connection/DNS error, non-2xx status, malformed body),
`get_logs` does not raise — it is total, returning `{'data': [], 'meta': {}}`
baked in by the `except` handler — and the driver treats that result exactly
like a legitimate end-of-stream page: the loop terminates with its
accumulator unchanged and no further fetch. -/
theorem get_logs_failure_is_empty_page {α : Type} (e : FetchFailure)
    (cap : Option Int) (rest : List (Page α)) (acc : List α) :
    get_logs_result (α := α) (Except.error e) = ⟨[], none⟩ ∧
    (get_logs_result (α := α) (Except.error e)).data = [] ∧
    (get_logs_result (α := α) (Except.error e)).cursor = none ∧
    downloadLoop cap (get_logs_result (Except.error e) :: rest) acc =
      ⟨acc, 0, 1⟩ :=
  ⟨rfl, rfl, rfl, downloadLoop_cons_empty cap _ rest acc rfl⟩

/-- Claim C6 (confirmed): a fetched page whose record list is empty
terminates the pagination loop immediately, whether or not a cursor
accompanies it: the accumulator is unchanged, no pacing sleep happens, and
no further fetch is issued (the fetch count is the one fetch of this very
page). -/
theorem empty_page_always_terminates {α : Type} (cap : Option Int)
    (p : Page α) (rest : List (Page α)) (acc : List α) (h : p.data = []) :
    downloadLoop cap (p :: rest) acc = ⟨acc, 0, 1⟩ :=
  downloadLoop_cons_empty cap p rest acc (by rw [h]; rfl)

/-- Witness for C6 at a concrete input: the empty page carries a cursor
(`some "more"`) and further pages follow, yet the loop stops at once. -/
theorem empty_page_always_terminates_witness :
    ((⟨[], some "more"⟩ : Page Nat).data = []) ∧
    downloadLoop (some 5) [(⟨[], some "more"⟩ : Page Nat), ⟨[1], none⟩] [9, 9] =
      ⟨[9, 9], 0, 1⟩ :=
  ⟨rfl, empty_page_always_terminates (some 5) ⟨[], some "more"⟩ [⟨[1], none⟩] [9, 9] rfl⟩

/-- Claim C7 (confirmed): a fetched page with a non-empty record list and an
absent cursor terminates the loop immediately after its records are
appended, provided the cap check did not fire (in particular whenever no
cap is configured, since `capHit none` is always false). -/
theorem nonempty_no_cursor_terminates {α : Type} (cap : Option Int)
    (p : Page α) (rest : List (Page α)) (acc : List α)
    (h1 : p.data ≠ []) (h2 : p.cursor = none)
    (h3 : capHit cap (acc ++ p.data).length = false) :
    downloadLoop cap (p :: rest) acc = ⟨acc ++ p.data, 0, 1⟩ := by
  have h1e : p.data.isEmpty = false := by
    cases hd : p.data
    · exact absurd hd h1
    · rfl
  have h3e : pyTruthy p.cursor = false := by rw [h2]; rfl
  exact downloadLoop_cons_stop cap p rest acc h1e h3 h3e

/-- Witness for C7 at a concrete input: no cap configured, further pages
queued, page has records but no cursor — the loop stops after appending. -/
theorem nonempty_no_cursor_terminates_witness :
    (((⟨[1, 2], none⟩ : Page Nat).data ≠ []) ∧
      (⟨[1, 2], none⟩ : Page Nat).cursor = none ∧
      capHit none (([] : List Nat) ++ (⟨[1, 2], none⟩ : Page Nat).data).length = false) ∧
    downloadLoop none [(⟨[1, 2], none⟩ : Page Nat), ⟨[3], some "c"⟩] [] =
      ⟨[] ++ [1, 2], 0, 1⟩ :=
  ⟨⟨by decide, rfl, rfl⟩,
    nonempty_no_cursor_terminates none ⟨[1, 2], none⟩ [⟨[3], some "c"⟩] []
      (by decide) rfl rfl⟩

/-- Claim C10 (confirmed): a present-but-empty-string cursor is treated
exactly like an absent cursor at both boundaries.  The driver behaves
identically on a page with cursor `some ""` and one with cursor `none`
(so with a non-empty record list and no cap hit it terminates rather than
fetching again), and `get_logs` omits the `cursor` query parameter for an
empty-string cursor just as for `None`. -/
theorem empty_cursor_treated_as_absent :
    (∀ (α : Type) (cap : Option Int) (rest : List (Page α)) (acc d : List α),
      downloadLoop cap (⟨d, some ""⟩ :: rest) acc =
        downloadLoop cap (⟨d, none⟩ :: rest) acc) ∧
    (∀ limit : Int, get_logs_params limit (some "") = get_logs_params limit none) ∧
    (∀ (α : Type) (cap : Option Int) (rest : List (Page α)) (acc d : List α),
      d ≠ [] → capHit cap (acc ++ d).length = false →
      downloadLoop cap (⟨d, some ""⟩ :: rest) acc = ⟨acc ++ d, 0, 1⟩) := by
  refine ⟨?_, ?_, ?_⟩
  · intro α cap rest acc d
    simp [downloadLoop, pyTruthy]
  · intro limit
    simp [get_logs_params, pyTruthy]
  · intro α cap rest acc d hd hcap
    have h1e : (⟨d, some ""⟩ : Page α).data.isEmpty = false := by
      cases hd2 : d
      · exact absurd hd2 hd
      · rfl
    exact downloadLoop_cons_stop cap ⟨d, some ""⟩ rest acc h1e hcap rfl

/-- Witness for C10 at a concrete input: a page `{data = [1], cursor = ""}`
with another page queued; the loop stops with just `[1]`. -/
theorem empty_cursor_treated_as_absent_witness :
    (([1] : List Nat) ≠ [] ∧
      capHit none (([] : List Nat) ++ [1]).length = false) ∧
    downloadLoop none [(⟨[1], some ""⟩ : Page Nat), ⟨[2], none⟩] [] =
      ⟨[] ++ [1], 0, 1⟩ :=
  ⟨⟨by decide, rfl⟩,
    empty_cursor_treated_as_absent.2.2 Nat none [⟨[2], none⟩] [] [1] (by decide) rfl⟩

/-- A one-page simulated API delivering a single record. -/
def apiOne : List (Page Nat) := [⟨[7], none⟩]

/-- Claim C1 counterexample: with cap `C = 0` and total `T = 1` (so `C ≤ T`)
the claim demands `min(0, 1) = 0` records, but `if max_logs` treats the cap
`0` as falsy, so the code downloads the full record instead. -/
theorem download_all_logs_cap_zero_counterexample :
    (download_all_logs (some 0) apiOne).logs = [7] ∧
    (download_all_logs none apiOne).logs.length = 1 ∧
    min (Int.toNat 0) (download_all_logs none apiOne).logs.length = 0 ∧
    (download_all_logs (some 0) apiOne).logs.length ≠
      min (Int.toNat 0) (download_all_logs none apiOne).logs.length := by
  decide

/-- Claim C1 (corrected: the cap must be positive — a cap of `0` is falsy in
`if max_logs` and behaves as no cap at all): for every positive cap `C`, the
capped download returns exactly the uncapped delivery-order record sequence
truncated to `C`, hence `min(C, T)` records for a total of `T`, in original
API delivery order; with the cap absent all records are returned (by
definition of the uncapped run). -/
theorem download_all_logs_positive_cap_take {α : Type} (C : Int)
    (api : List (Page α)) (h : 1 ≤ C) :
    (download_all_logs (some C) api).logs =
      ((download_all_logs none api).logs).take C.toNat ∧
    ((download_all_logs (some C) api).logs).length =
      min C.toNat ((download_all_logs none api).logs).length := by
  have hmain := downloadLoop_cap_take api C [] h
    (by simp only [List.length_nil, Nat.cast_zero]; omega)
  refine ⟨hmain, ?_⟩
  rw [download_all_logs, hmain, List.length_take]
  rfl

/-- Witness for C1 at a concrete input: cap 3 against an API totalling 4
records over two pages yields the first 3 records, `min(3, 4) = 3`. -/
theorem download_all_logs_positive_cap_take_witness :
    ((1 : Int) ≤ 3) ∧
    ((download_all_logs (some 3) [(⟨[10, 20], some "a"⟩ : Page Nat), ⟨[30, 40], none⟩]).logs =
        ((download_all_logs none [(⟨[10, 20], some "a"⟩ : Page Nat), ⟨[30, 40], none⟩]).logs).take
          (Int.toNat 3) ∧
      ((download_all_logs (some 3) [(⟨[10, 20], some "a"⟩ : Page Nat), ⟨[30, 40], none⟩]).logs).length =
        min (Int.toNat 3)
          ((download_all_logs none [(⟨[10, 20], some "a"⟩ : Page Nat), ⟨[30, 40], none⟩]).logs).length) :=
  ⟨by decide,
    download_all_logs_positive_cap_take 3
      [(⟨[10, 20], some "a"⟩ : Page Nat), ⟨[30, 40], none⟩] (by decide)⟩

/-- The literal C4 scenario: the API delivers three pages of two records
each (each with a continuation cursor, so that the next page is actually
fetched) and then an empty page. -/
def apiA : List (Page Nat) :=
  [⟨[1, 2], some "c1"⟩, ⟨[3, 4], some "c2"⟩, ⟨[5, 6], some "c3"⟩, ⟨[], none⟩]

/-- The C4 scenario variant in which the third page carries no cursor, so
the empty fourth page is never fetched. -/
def apiB : List (Page Nat) :=
  [⟨[1, 2], some "c1"⟩, ⟨[3, 4], some "c2"⟩, ⟨[5, 6], none⟩, ⟨[], none⟩]

/-- Claim C4 counterexample: in the literal scenario (three 2-record pages
each carrying a cursor, then an empty page that is actually fetched) the
downloader returns all 6 records but sleeps three times — once before each
of the 2nd, 3rd and 4th fetches — not twice as claimed. -/
theorem pacing_delay_twice_counterexample :
    (download_all_logs none apiA).logs = [1, 2, 3, 4, 5, 6] ∧
    (download_all_logs none apiA).sleeps = 3 ∧
    (download_all_logs none apiA).sleeps ≠ 2 := by
  decide

/-- Claim C4 (corrected: in the literal scenario the delay fires three
times, because it also runs between page 3 and the terminal empty page):
the pacing delay fires exactly once before each follow-up fetch and never
after the terminal page — fetches = sleeps + 1 always.  In the literal
scenario (empty page actually fetched) all 6 records are returned in order
with 3 sleeps and 4 fetches; the claimed count of exactly 2 sleeps occurs
in the variant where page 3 carries no cursor, in which case the empty
page is never fetched at all (3 fetches). -/
theorem pacing_delay_spec :
    (∀ (α : Type) (cap : Option Int) (api : List (Page α)) (acc : List α),
      (downloadLoop cap api acc).fetches = (downloadLoop cap api acc).sleeps + 1) ∧
    download_all_logs none apiA = ⟨[1, 2, 3, 4, 5, 6], 3, 4⟩ ∧
    download_all_logs none apiB = ⟨[1, 2, 3, 4, 5, 6], 2, 3⟩ :=
  ⟨fun α cap api acc => downloadLoop_fetches_eq_sleeps_succ cap api acc,
    by decide, by decide⟩

/-- Claim C2 counterexample: a run with both `--json-only` and `--csv-only`
that downloads one record writes NEITHER file — the trace is one fetch
followed by a normal exit, with no write events — contradicting the claim
that neither file type is suppressed. -/
theorem both_only_flags_counterexample :
    (download_all_logs (α := Nat) none [⟨[1], none⟩]).logs ≠ [] ∧
    mainRun (α := Nat) (some "k") none (some "p") none none true true [⟨[1], none⟩] =
      [Ev.netRequest, Ev.exitWith 0] ∧
    ¬(Ev.writeJson ∈
        mainRun (α := Nat) (some "k") none (some "p") none none true true [⟨[1], none⟩] ∧
      Ev.writeCsv ∈
        mainRun (α := Nat) (some "k") none (some "p") none none true true [⟨[1], none⟩]) := by
  decide

/-- Claim C2 (corrected: with both flags given, BOTH output file types are
suppressed, not neither — `--csv-only` skips the JSON write and
`--json-only` skips the CSV write, so together they skip both): on every
run with both flags set, no JSON write event and no CSV write event occurs,
whatever was downloaded. -/
theorem both_only_flags_suppress_both_outputs {α : Type}
    (kf ke pf pe : Option String) (ml : Option Int) (api : List (Page α)) :
    Ev.writeJson ∉ mainRun kf ke pf pe ml true true api ∧
    Ev.writeCsv ∉ mainRun kf ke pf pe ml true true api := by
  unfold mainRun
  by_cases h1 : pyTruthy (resolveArg kf ke) = false
  · simp [h1]
  · by_cases h2 : pyTruthy (resolveArg pf pe) = false
    · simp [h1, h2]
    · by_cases h3 : (download_all_logs ml api).logs.isEmpty
      · simp [h1, h2, h3, List.mem_replicate]
      · simp [h1, h2, h3, List.mem_replicate]

/-- Concrete usage-error run used for the C3 counterexample. -/
def missingKeyRun : List Ev :=
  mainRun (α := Nat) none none (some "p") none none false false [⟨[1], some "c"⟩]

/-- Claim C3 counterexample: with the api key missing (no flag, no
environment value) `main` aborts via `argparse`'s `parser.error`, which
terminates the process with status 2, not 1 — though indeed before any
network activity. -/
theorem missing_credentials_exit_code_counterexample :
    missingKeyRun = [Ev.exitWith 2] ∧
    Ev.exitWith 1 ∉ missingKeyRun ∧
    Ev.netRequest ∉ missingKeyRun := by
  decide

/-- Claim C3 (corrected: the exit status is 2, `argparse`'s usage-error
status, not 1): if the resolved api key or the resolved profile is falsy
(absent or empty, from neither flag nor environment), the whole run is the
single usage-error exit with status 2 and no network request ever
happens. -/
theorem missing_credentials_exit_two {α : Type} (kf ke pf pe : Option String)
    (ml : Option Int) (jo co : Bool) (api : List (Page α))
    (h : pyTruthy (resolveArg kf ke) = false ∨ pyTruthy (resolveArg pf pe) = false) :
    mainRun kf ke pf pe ml jo co api = [Ev.exitWith 2] ∧
    Ev.netRequest ∉ mainRun kf ke pf pe ml jo co api := by
  unfold mainRun
  rcases h with h | h
  · simp [h]
  · by_cases h1 : pyTruthy (resolveArg kf ke) = false
    · simp [h1]
    · simp [h, h1]

/-- Witness for C3 at a concrete input: no api key anywhere while the
profile is supplied by the environment. -/
theorem missing_credentials_exit_two_witness :
    (pyTruthy (resolveArg none none) = false ∨
      pyTruthy (resolveArg none (some "p")) = false) ∧
    (mainRun (α := Nat) none none none (some "p") none false false [⟨[3], none⟩] =
        [Ev.exitWith 2] ∧
      Ev.netRequest ∉
        mainRun (α := Nat) none none none (some "p") none false false [⟨[3], none⟩]) :=
  ⟨Or.inl rfl,
    missing_credentials_exit_two none none none (some "p") none false false
      [⟨[3], none⟩] (Or.inl rfl)⟩

/-- The record `{"a": {"b": 1}, "c": [1, 2]}`. -/
def exampleNested : FieldList :=
  FieldList.cons "a" (Value.obj (FieldList.cons "b" (Value.num 1) FieldList.nil))
    (FieldList.cons "c"
      (Value.list (ValueList.cons (Value.num 1)
        (ValueList.cons (Value.num 2) ValueList.nil)))
      FieldList.nil)

/-- The record `{"a": []}`. -/
def exampleEmptyList : FieldList :=
  FieldList.cons "a" (Value.list ValueList.nil) FieldList.nil

/-- Claim C8 (confirmed): `_flatten_dict` joins nested keys with `_`,
renders a list as its `str`-converted elements joined with `", "` (the
empty list as the empty string), and passes scalar values through with
value and type unchanged.  In particular `{"a": {"b": 1}, "c": [1, 2]}`
flattens to `{"a_b": 1, "c": "1, 2"}` and `{"a": []}` to `{"a": ""}`. -/
theorem flatten_dict_spec :
    flatten_dict exampleNested = [("a_b", Value.num 1), ("c", Value.str "1, 2")] ∧
    flatten_dict exampleEmptyList = [("a", Value.str "")] ∧
    (∀ (k : String) (v : Value), isScalar v = true →
      flatten_dict (FieldList.cons k v FieldList.nil) = [(k, v)]) := by
  refine ⟨rfl, rfl, ?_⟩
  intro k v hv
  cases v with
  | str s => rfl
  | num n => rfl
  | bool b => rfl
  | null => rfl
  | list xs => exact absurd hv (by simp [isScalar])
  | obj fs => exact absurd hv (by simp [isScalar])

/-- Witness for C8 at a concrete input: the scalar `5` under key `"x"`
passes through the flattener unchanged. -/
theorem flatten_dict_spec_witness :
    isScalar (Value.num 5) = true ∧
    flatten_dict (FieldList.cons "x" (Value.num 5) FieldList.nil) =
      [("x", Value.num 5)] :=
  ⟨rfl, flatten_dict_spec.2.2 "x" (Value.num 5) rfl⟩

/-- Claim C9 (confirmed): for an empty record list `save_to_csv` writes
nothing (the reported no-op); for a non-empty list the written header is
the lexicographically sorted, duplicate-free union of the flattened keys of
all records (computed over the whole list), one data row is written per
record in order, and a record lacking a header key gets an empty cell at
that key's column. -/
theorem save_to_csv_spec :
    save_to_csv [] = none ∧
    ∀ (logs : List FieldList), logs ≠ [] →
      ∃ f, save_to_csv logs = some f ∧
        List.Sorted (fun a b => a ≤ b) f.header ∧
        f.header.Nodup ∧
        (∀ k, k ∈ f.header ↔ ∃ log ∈ logs, ∃ v, (k, v) ∈ flatten_dict log) ∧
        f.rows = logs.map (csvRow f.header) ∧
        f.rows.length = logs.length ∧
        (∀ (log : FieldList) (k : String) (i : Nat),
          lookupVal (flatten_dict log) k = none → f.header[i]? = some k →
          (csvRow f.header log)[i]? = some "") := by
  constructor
  · rfl
  · intro logs hne
    have hlogs : logs.isEmpty = false := by
      cases logs
      · exact absurd rfl hne
      · rfl
    refine ⟨⟨fieldnames logs, logs.map (csvRow (fieldnames logs))⟩,
      ?_, ?_, ?_, ?_, rfl, ?_, ?_⟩
    · simp [save_to_csv, hlogs]
    · exact sorted_sortStrings _
    · exact (sortStrings_perm _).nodup_iff.mpr (List.nodup_dedup _)
    · intro k
      exact mem_fieldnames.trans (mem_allKeys logs)
    · exact List.length_map _ _
    · intro log k i hnone hk
      show (List.map (fun k2 => csvCell (lookupVal (flatten_dict log) k2))
        (fieldnames logs))[i]? = some ""
      rw [List.getElem?_map, hk]
      simp [csvCell, hnone]

/-- The record `{"b": 1}` (lacks key `"a"`). -/
def logB : FieldList := FieldList.cons "b" (Value.num 1) FieldList.nil

/-- The record `{"a": "x"}` (lacks key `"b"`). -/
def logA : FieldList := FieldList.cons "a" (Value.str "x") FieldList.nil

/-- Witness for C9 at a concrete input: two records with disjoint keys. -/
theorem save_to_csv_spec_witness :
    ([logB, logA] ≠ ([] : List FieldList)) ∧
    (∃ f, save_to_csv [logB, logA] = some f ∧
      List.Sorted (fun a b => a ≤ b) f.header ∧
      f.header.Nodup ∧
      (∀ k, k ∈ f.header ↔ ∃ log ∈ [logB, logA], ∃ v, (k, v) ∈ flatten_dict log) ∧
      f.rows = [logB, logA].map (csvRow f.header) ∧
      f.rows.length = [logB, logA].length ∧
      (∀ (log : FieldList) (k : String) (i : Nat),
        lookupVal (flatten_dict log) k = none → f.header[i]? = some k →
        (csvRow f.header log)[i]? = some "")) :=
  ⟨by simp, save_to_csv_spec.2 [logB, logA] (by simp)⟩

end NextDNS
